import Mathlib

/-!
Verification of the legislative-monitor core: a shallow embedding of
src/legislative_monitor.py (LegislativeMonitor) and
src/dags/legislative_monitor_dag.py (the per-bill orchestration tasks),
together with theorems settling the specification claims.

External effects (the GraphQL endpoint, HTTP document fetches, the language
model) are modelled as explicit environment functions; Python exceptions are
modelled with Except, and Python dict lookups that may miss a key are
modelled with Option-valued fields.
-/

namespace LegMon

/-- Configuration constant MAX_TEXT_LENGTH from legislative_monitor.py. -/
def MAX_TEXT_LENGTH : Nat := 8000

/-- Configuration constant RATE_LIMIT_DELAY from legislative_monitor.py. -/
def RATE_LIMIT_DELAY : Nat := 2

/-- A JSON value, the codomain of json.loads as used by the alert generator. -/
inductive JsonVal where
  | obj (fields : List (String × JsonVal))
  | arr (items : List JsonVal)
  | str (s : String)
  | num (n : Int)
  | bool (b : Bool)
  | null

/-- One entry of a bill's sources list: a dict that may lack the url key
(the Python code indexes it with sources[0]["url"], which raises KeyError
when the key is absent). -/
structure Source where
  url : Option String
deriving DecidableEq

/-- A bill record as fetched from the API and passed between tasks as a
JSON-like dict; every key may be absent, which the Python code handles with
.get and default values. -/
structure Bill where
  id : Option String
  identifier : Option String
  title : Option String
  sources : Option (List Source)
deriving DecidableEq

/-- Python truthiness of bill.get("sources"): both a missing key and an empty
list are falsy, so the orchestrators treat them alike. -/
def pySources (b : Bill) : List Source :=
  b.sources.getD []

/-- The outcome of LegislativeMonitor._execute_graphql_query followed by the
shape checks performed by fetch_bills:
failure models an exception inside execute (caught there, returning None);
malformed models a returned dict without the bills/edges keys;
edges models a well-shaped response carrying the list of node dicts. -/
inductive GqlResult where
  | failure
  | malformed
  | edges (nodes : List Bill)
deriving DecidableEq

/-- The fixed leading text of the GraphQL query template in
LegislativeMonitor._get_bills_query, up to the opening quote of the
jurisdiction argument. -/
def qHead : String :=
  "\n        query \x7b\n            bills(jurisdiction: \""

/-- The template text between the jurisdiction argument and the limit. -/
def qAfterJur : String :=
  "\", first: "

/-- The fixed trailing text of the GraphQL query template, from the closing
parenthesis of the bills arguments to the end. -/
def qTail : String :=
  ") \x7b\n                edges \x7b\n                    node \x7b\n                        id\n                        identifier\n                        title\n                        sources \x7b\n                            url\n                        \x7d\n                    \x7d\n                \x7d\n            \x7d\n        \x7d\n        "

/-- The search_filter f-string of _get_bills_query: empty when search_term is
Python-falsy (None or the empty string), otherwise the searchQuery argument
with the term interpolated verbatim between two double quotes. -/
def mkSearchFilter (search_term : Option String) : String :=
  match search_term with
  | none => ""
  | some t => if t = "" then "" else ", searchQuery: \"" ++ t ++ "\""

/-- LegislativeMonitor._get_bills_query: builds the query text by f-string
interpolation of jurisdiction, limit and the optional search filter. -/
def get_bills_query (jurisdiction : String) (search_term : Option String) (limit : Nat) : String :=
  qHead ++ jurisdiction ++ qAfterJur ++ Nat.repr limit ++ mkSearchFilter search_term ++ qTail

/-- The hard-coded jurisdiction list of LegislativeMonitor.fetch_bills. -/
def jurisdictions : List String :=
  ["ocd-jurisdiction/country:us/state:ca/government",
   "ocd-jurisdiction/country:us/state:al/government"]

/-- The hard-coded search term list of LegislativeMonitor.fetch_bills. -/
def search_terms : List String :=
  ["cryptocurrency", "digital asset", "blockchain"]

/-- The inner keyword loop of fetch_bills for one jurisdiction: for each term
in order, issue the query with limit 10; on a well-shaped non-empty edges
list return those bills, otherwise continue with the next term.  The second
component records every query string issued, in order. -/
def runTerms (env : String → GqlResult) (j : String) : List String → Option (List Bill) × List String
  | [] => (none, [])
  | t :: ts =>
    let q := get_bills_query j (some t) 10
    match env q with
    | GqlResult.edges nodes =>
      if nodes.isEmpty then
        let r := runTerms env j ts
        (r.1, q :: r.2)
      else (some nodes, [q])
    | _ =>
      let r := runTerms env j ts
      (r.1, q :: r.2)

/-- The outer jurisdiction loop of fetch_bills: for each jurisdiction first
the unfiltered query with limit 5, returning immediately on a non-empty
result, otherwise the keyword loop, otherwise the next jurisdiction.  The
second component records every query string issued, in order. -/
def runJuris (env : String → GqlResult) (terms : List String) : List String → Option (List Bill) × List String
  | [] => (none, [])
  | j :: js =>
    let q := get_bills_query j none 5
    let afterNoFilter :=
      let rt := runTerms env j terms
      match rt.1 with
      | some bills => (some bills, q :: rt.2)
      | none =>
        let rj := runJuris env terms js
        (rj.1, q :: (rt.2 ++ rj.2))
    match env q with
    | GqlResult.edges nodes => if nodes.isEmpty then afterNoFilter else (some nodes, [q])
    | _ => afterNoFilter

/-- LegislativeMonitor.fetch_bills instrumented with the trace of issued
query strings: runs the jurisdiction loop over the hard-coded lists and
returns the empty list when the whole search space is exhausted. -/
def fetch_billsT (env : String → GqlResult) : List Bill × List String :=
  let r := runJuris env search_terms jurisdictions
  (r.1.getD [], r.2)

/-- LegislativeMonitor.fetch_bills: the bill list actually returned. -/
def fetch_bills (env : String → GqlResult) : List Bill :=
  (fetch_billsT env).1

/-- A jurisdiction/keyword combination as attempted by fetch_bills:
jurisdiction, optional search term, and result limit. -/
def mkQuery (c : String × Option String × Nat) : String :=
  get_bills_query c.1 c.2.1 c.2.2

/-- What one combination yields under an environment: the node list when the
response is well-shaped with at least one edge, none otherwise (failure,
malformed response, or an empty edge list all continue the search). -/
def queryBills (env : String → GqlResult) (c : String × Option String × Nat) : Option (List Bill) :=
  match env (mkQuery c) with
  | GqlResult.edges nodes => if nodes.isEmpty then none else some nodes
  | _ => none

/-- The keyword combinations of one jurisdiction, in the order attempted. -/
def termCombos (j : String) (ts : List String) : List (String × Option String × Nat) :=
  ts.map (fun t => (j, some t, 10))

/-- All combinations of the search space in the fixed priority order: per
jurisdiction the unfiltered query with limit 5 first, then each keyword with
limit 10. -/
def combosOf (js ts : List String) : List (String × Option String × Nat) :=
  js.flatMap (fun j => (j, none, 5) :: termCombos j ts)

/-- The concrete combination order of fetch_bills. -/
def combos : List (String × Option String × Nat) :=
  combosOf jurisdictions search_terms

/-- The elements of a list up to and including the first one satisfying p;
the whole list when none does. -/
def upToFirst (p : α → Bool) : List α → List α
  | [] => []
  | a :: as => if p a then [a] else a :: upToFirst p as

lemma upToFirst_of_all_false {p : α → Bool} :
    ∀ {l : List α}, (∀ a ∈ l, p a = false) → upToFirst p l = l
  | [], _ => rfl
  | a :: as, h => by
    have ha : p a = false := h a (List.mem_cons_self a as)
    simp [upToFirst, ha, upToFirst_of_all_false (fun x hx => h x (List.mem_cons_of_mem a hx))]

lemma upToFirst_append_of_all_false {p : α → Bool} {l l2 : List α}
    (h : ∀ a ∈ l, p a = false) : upToFirst p (l ++ l2) = l ++ upToFirst p l2 := by
  induction l with
  | nil => simp
  | cons a as ih =>
    have ha : p a = false := h a (List.mem_cons_self a as)
    simp [upToFirst, ha, ih (fun x hx => h x (List.mem_cons_of_mem a hx))]

lemma upToFirst_append_of_any {p : α → Bool} {l l2 : List α}
    (h : l.any p = true) : upToFirst p (l ++ l2) = upToFirst p l := by
  induction l with
  | nil => simp at h
  | cons a as ih =>
    cases ha : p a with
    | true => simp [upToFirst, ha]
    | false =>
      have h2 : as.any p = true := by simpa [ha] using h
      simp [upToFirst, ha, ih h2]

/-- The inner keyword loop returns the first keyword combination yielding at
least one bill, and its query trace is exactly the combinations attempted up
to and including that first success. -/
lemma runTerms_spec (env : String → GqlResult) (j : String) :
    ∀ ts : List String,
      runTerms env j ts =
        ((termCombos j ts).findSome? (queryBills env),
         (upToFirst (fun c => (queryBills env c).isSome) (termCombos j ts)).map mkQuery) := by
  intro ts
  induction ts with
  | nil => rfl
  | cons t ts ih =>
    cases h : env (get_bills_query j (some t) 10) with
    | failure =>
      have h0 : queryBills env (j, some t, 10) = none := by simp [queryBills, mkQuery, h]
      simp [runTerms, h, ih, termCombos, List.findSome?_cons, h0, upToFirst, mkQuery]
    | malformed =>
      have h0 : queryBills env (j, some t, 10) = none := by simp [queryBills, mkQuery, h]
      simp [runTerms, h, ih, termCombos, List.findSome?_cons, h0, upToFirst, mkQuery]
    | edges nodes =>
      cases nodes with
      | nil =>
        have h0 : queryBills env (j, some t, 10) = none := by simp [queryBills, mkQuery, h]
        simp [runTerms, h, ih, termCombos, List.findSome?_cons, h0, upToFirst, mkQuery]
      | cons b bs =>
        have h0 : queryBills env (j, some t, 10) = some (b :: bs) := by
          simp [queryBills, mkQuery, h]
        simp [runTerms, h, termCombos, List.findSome?_cons, h0, upToFirst, mkQuery]

/-- The jurisdiction loop returns the first combination of the whole ordered
search space yielding at least one bill, and its query trace is exactly the
combinations attempted up to and including that first success. -/
lemma runJuris_cons_eq (env : String → GqlResult) (ts : List String) (j : String) (js : List String) :
    runJuris env ts (j :: js) =
      (match queryBills env (j, none, 5) with
       | some bills => (some bills, [get_bills_query j none 5])
       | none =>
         let q := get_bills_query j none 5
         let rt := runTerms env j ts
         match rt.1 with
         | some bills => (some bills, q :: rt.2)
         | none =>
           let rj := runJuris env ts js
           (rj.1, q :: (rt.2 ++ rj.2))) := by
  cases h : env (get_bills_query j none 5) with
  | failure => simp [runJuris, queryBills, mkQuery, h]
  | malformed => simp [runJuris, queryBills, mkQuery, h]
  | edges nodes =>
    cases nodes with
    | nil => simp [runJuris, queryBills, mkQuery, h]
    | cons b bs => simp [runJuris, queryBills, mkQuery, h]

lemma runJuris_spec (env : String → GqlResult) (ts : List String) :
    ∀ js : List String,
      runJuris env ts js =
        ((combosOf js ts).findSome? (queryBills env),
         (upToFirst (fun c => (queryBills env c).isSome) (combosOf js ts)).map mkQuery) := by
  intro js
  induction js with
  | nil => rfl
  | cons j js ih =>
    rw [runJuris_cons_eq]
    have hcombo : combosOf (j :: js) ts
        = (j, none, 5) :: (termCombos j ts ++ combosOf js ts) := by
      simp [combosOf]
    rw [hcombo, runTerms_spec]
    cases h0 : queryBills env (j, none, 5) with
    | some bills =>
      simp [List.findSome?_cons, h0, upToFirst, mkQuery]
    | none =>
      cases hft : (termCombos j ts).findSome? (queryBills env) with
      | some bills =>
        have hsome : ((termCombos j ts).findSome? (queryBills env)).isSome = true := by
          rw [hft]
          rfl
        have hany : (termCombos j ts).any (fun c => (queryBills env c).isSome) = true := by
          rw [List.any_eq_true]
          exact List.findSome?_isSome_iff.mp hsome
        simp [hft, List.findSome?_cons, h0, List.findSome?_append, upToFirst,
          upToFirst_append_of_any hany, mkQuery]
      | none =>
        have hallb : ∀ c ∈ termCombos j ts, ((queryBills env c).isSome : Bool) = false := by
          intro c hc
          simp [List.findSome?_eq_none_iff.mp hft c hc]
        simp [hft, ih, List.findSome?_cons, h0, List.findSome?_append, upToFirst,
          upToFirst_append_of_all_false hallb, upToFirst_of_all_false hallb, mkQuery]

/-- The full search strategy, characterized over the concrete combination
order: the returned bills are those of the first successful combination (or
empty), and the trace is every combination up to that success. -/
lemma fetch_bills_spec (env : String → GqlResult) :
    fetch_billsT env =
      ((combos.findSome? (queryBills env)).getD [],
       (upToFirst (fun c => (queryBills env c).isSome) combos).map mkQuery) := by
  simp [fetch_billsT, runJuris_spec, combos]

/-- C1: fetch_bills tries the combinations in the fixed priority order (per
jurisdiction the unfiltered query with limit 5 first, then each keyword in
order with limit 10), returns the bill list of the first combination
yielding at least one bill (empty when none does), and its issued-query
trace stops at that first success, so no later combination is attempted. -/
theorem c1_fetch_bills_first_success (env : String → GqlResult) :
    fetch_bills env = (combos.findSome? (queryBills env)).getD [] ∧
    (fetch_billsT env).2 =
      (upToFirst (fun c => (queryBills env c).isSome) combos).map mkQuery := by
  refine ⟨?_, ?_⟩
  · show (fetch_billsT env).1 = _
    rw [fetch_bills_spec]
  · rw [fetch_bills_spec]

/-- Collapses the two failure modes of _execute_graphql_query and the shape
check of fetch_bills (exception and malformed dict) into an empty edge
list, to state that a query failure is treated identically to an empty
result. -/
def normalizeGql : GqlResult → GqlResult
  | GqlResult.edges nodes => GqlResult.edges nodes
  | _ => GqlResult.edges []

lemma queryBills_normalize (env : String → GqlResult) :
    queryBills (fun q => normalizeGql (env q)) = queryBills env := by
  funext c
  simp only [queryBills]
  cases env (mkQuery c) with
  | failure => rfl
  | malformed => rfl
  | edges nodes => rfl

lemma fetch_billsT_normalize (env : String → GqlResult) :
    fetch_billsT (fun q => normalizeGql (env q)) = fetch_billsT env := by
  rw [fetch_bills_spec, fetch_bills_spec, queryBills_normalize]

/-- C5: when every combination of the search space yields no bill (failure,
malformed response, or empty result), fetch_bills returns the empty list;
and replacing every query failure by an empty result changes neither the
returned bills nor the issued-query trace, so each failure is treated
identically to an empty result and the search continues.  The embedding of
fetch_bills is a total function, so no exception escapes it. -/
theorem c5_exhausted_search_empty_and_failures_nonfatal (env : String → GqlResult) :
    ((∀ c ∈ combos, queryBills env c = none) → fetch_bills env = []) ∧
    fetch_billsT (fun q => normalizeGql (env q)) = fetch_billsT env := by
  refine ⟨?_, fetch_billsT_normalize env⟩
  intro h
  have hn : combos.findSome? (queryBills env) = none := List.findSome?_eq_none_iff.mpr h
  simp [fetch_bills, fetch_bills_spec, hn]

/-- Witness for C5 at the environment in which every query fails. -/
theorem c5_witness :
    fetch_bills (fun _ => GqlResult.failure) = [] ∧
    fetch_billsT (fun q => normalizeGql ((fun _ => GqlResult.failure) q))
      = fetch_billsT (fun _ => GqlResult.failure) :=
  ⟨(c5_exhausted_search_empty_and_failures_nonfatal (fun _ => GqlResult.failure)).1
      (fun _ _ => rfl),
   (c5_exhausted_search_empty_and_failures_nonfatal (fun _ => GqlResult.failure)).2⟩

/-- Number of double-quote characters in a string. -/
def countQuote (s : String) : Nat :=
  s.data.count '\"'

lemma countQuote_append (a b : String) :
    countQuote (a ++ b) = countQuote a + countQuote b := by
  simp [countQuote, String.data_append, List.count_append]

lemma digitChar_ne_quote : ∀ n : Nat, Nat.digitChar n ≠ '\"'
  | 0 => by decide
  | 1 => by decide
  | 2 => by decide
  | 3 => by decide
  | 4 => by decide
  | 5 => by decide
  | 6 => by decide
  | 7 => by decide
  | 8 => by decide
  | 9 => by decide
  | 10 => by decide
  | 11 => by decide
  | 12 => by decide
  | 13 => by decide
  | 14 => by decide
  | 15 => by decide
  | (n + 16) => by
    have h : Nat.digitChar (n + 16) = '*' := rfl
    rw [h]
    decide

lemma toDigitsCore_no_quote (fuel : Nat) : ∀ (n : Nat) (ds : List Char),
    (∀ c ∈ ds, c ≠ '\"') → ∀ c ∈ Nat.toDigitsCore 10 fuel n ds, c ≠ '\"' := by
  induction fuel with
  | zero =>
    intro n ds h
    exact h
  | succ fuel ih =>
    intro n ds h
    have hcons : ∀ c ∈ Nat.digitChar (n % 10) :: ds, c ≠ '\"' := by
      intro c hc
      rcases List.mem_cons.mp hc with rfl | hm
      · exact digitChar_ne_quote _
      · exact h c hm
    simp only [Nat.toDigitsCore]
    split
    · exact hcons
    · exact ih _ _ hcons

lemma countQuote_repr (n : Nat) : countQuote (Nat.repr n) = 0 := by
  rw [countQuote, List.count_eq_zero]
  intro hmem
  exact toDigitsCore_no_quote (n + 1) n [] (by simp) _ hmem rfl

set_option maxRecDepth 8192 in
/-- C10: _get_bills_query embeds jurisdiction, limit and search term into the
query text character-for-character with no escaping: for every nonempty
term the result is exactly the template around the verbatim values, and its
double-quote count is the four template delimiters plus every quote
contained in the jurisdiction and in the term.  A term containing a quote
therefore puts an unescaped quote inside the searchQuery string literal,
breaking the quoting structure of the generated query. -/
theorem c10_get_bills_query_no_escaping (j t : String) (l : Nat) (ht : t ≠ "") :
    get_bills_query j (some t) l
      = qHead ++ j ++ qAfterJur ++ Nat.repr l ++ (", searchQuery: \"" ++ t ++ "\"") ++ qTail ∧
    countQuote (get_bills_query j (some t) l) = countQuote j + countQuote t + 4 := by
  have hfilter : mkSearchFilter (some t) = ", searchQuery: \"" ++ t ++ "\"" := by
    simp [mkSearchFilter, ht]
  have h1 : countQuote qHead = 1 := by decide
  have h2 : countQuote qAfterJur = 1 := by decide
  have h3 : countQuote qTail = 0 := by decide
  have h4 : countQuote ", searchQuery: \"" = 1 := by decide
  have h5 : countQuote "\"" = 1 := by decide
  refine ⟨?_, ?_⟩
  · rw [get_bills_query, hfilter]
  · rw [get_bills_query, hfilter]
    simp only [countQuote_append, countQuote_repr, h1, h2, h3, h4, h5]
    omega

/-- Witness for C10 at a term containing a double quote. -/
theorem c10_witness :
    get_bills_query "J" (some "a\"b") 7
      = qHead ++ "J" ++ qAfterJur ++ Nat.repr 7 ++ (", searchQuery: \"" ++ "a\"b" ++ "\"") ++ qTail ∧
    countQuote (get_bills_query "J" (some "a\"b") 7)
      = countQuote "J" + countQuote "a\"b" + 4 :=
  c10_get_bills_query_no_escaping "J" "a\"b" 7 (by decide)

/-- The observable result of the model call plus json.loads in
generate_compliance_alert, as a function of the prompt (the only varying
part of the chat_completion request):
raised models an exception from chat_completion or the response attribute
accesses; parseError models content on which json.loads raises;
parsed carries the JSON value json.loads returns for the content. -/
inductive LlmOutcome where
  | raised (msg : String)
  | parseError (msg : String)
  | parsed (j : JsonVal)

/-- The external world of the per-bill pipeline: fetchDoc models the whole
of requests.get plus raise_for_status plus BeautifulSoup get_text for a
given URL (error when any stage raises, ok with the extracted text
otherwise); llm models the model call as described at LlmOutcome. -/
structure World where
  fetchDoc : String → Except String String
  llm : String → LlmOutcome

/-- LegislativeMonitor.fetch_bill_content: returns the extracted text, or
the empty string when any stage of retrieval or extraction fails (the
except branch logs and returns ""). -/
def fetch_bill_content (w : World) (url : String) : String :=
  match w.fetchDoc url with
  | Except.ok text => text
  | Except.error _ => ""

/-- Python slicing s[:n]: the first n characters of s. -/
def pySlice (s : String) (n : Nat) : String :=
  String.mk (s.data.take n)

/-- Python slicing s[n:], used only to state that pySlice is a leading
segment of the original string. -/
def pyDrop (s : String) (n : Nat) : String :=
  String.mk (s.data.drop n)

/-- The fixed text of the prompt in generate_compliance_alert before the
interpolated (truncated) bill content. -/
def promptHead : String :=
  "Summarize the following legislative change for a crypto compliance officer.\nReturn JSON with keys: title, summary, deadline, action_required, severity.\nTEXT:\n"

/-- The prompt sent to the model: the fixed text followed by the content
truncated to MAX_TEXT_LENGTH characters (bill_content[:MAX_TEXT_LENGTH]). -/
def mkPrompt (bill_content : String) : String :=
  promptHead ++ pySlice bill_content MAX_TEXT_LENGTH

/-- The deterministic fallback alert returned by generate_compliance_alert
when the model call or the JSON parse fails. -/
def fallbackAlert (bill_title : String) : JsonVal :=
  JsonVal.obj [("title", JsonVal.str bill_title),
    ("summary", JsonVal.str "Unable to generate summary"),
    ("deadline", JsonVal.str "Unknown"),
    ("action_required", JsonVal.str "Review manually"),
    ("severity", JsonVal.str "Unknown")]

/-- LegislativeMonitor.generate_compliance_alert: prompts the model with the
truncated content and returns json.loads of the response content, or the
fallback alert when the call or the parse raises.  The parsed value is
returned verbatim, without any validation of its keys. -/
def generate_compliance_alert (w : World) (bill_title bill_content : String) : JsonVal :=
  match w.llm (mkPrompt bill_content) with
  | LlmOutcome.parsed j => j
  | LlmOutcome.raised _ => fallbackAlert bill_title
  | LlmOutcome.parseError _ => fallbackAlert bill_title

/-- Case summary of generate_compliance_alert as a function of the model
outcome: fallback on either failure, the parsed value verbatim otherwise. -/
def alertOfOutcome (bill_title : String) : LlmOutcome → JsonVal
  | LlmOutcome.parsed j => j
  | LlmOutcome.raised _ => fallbackAlert bill_title
  | LlmOutcome.parseError _ => fallbackAlert bill_title

/-- The five keys the specification requires of a ComplianceAlert. -/
def alertKeys : List String :=
  ["title", "summary", "deadline", "action_required", "severity"]

/-- Modelled from the spec: a JSON value is a fully populated ComplianceAlert
when it is an object carrying all five alert keys. -/
def hasAllAlertKeys : JsonVal → Bool
  | JsonVal.obj fields => alertKeys.all (fun k => fields.any (fun p => p.1 == k))
  | _ => false

/-- C2 counterexample: a model response whose content is the valid JSON text
of an object holding only a summary key (json.loads succeeds and returns
exactly that object) makes generate_compliance_alert return a partially
populated alert lacking title, deadline, action_required and severity. -/
def wPartial : World :=
  { fetchDoc := fun _ => Except.ok "x",
    llm := fun _ => LlmOutcome.parsed (JsonVal.obj [("summary", JsonVal.str "s")]) }

/-- C2 is false as stated: at this concrete input the alert generator
returns an object that does not carry all five keys. -/
theorem c2_counterexample :
    generate_compliance_alert wPartial "T" "content"
      = JsonVal.obj [("summary", JsonVal.str "s")] ∧
    hasAllAlertKeys (generate_compliance_alert wPartial "T" "content") = false :=
  ⟨rfl, rfl⟩

/-- C2 amended: generate_compliance_alert is total and equals the fallback
alert exactly when the model call or the JSON parse fails, and equals the
parsed model object verbatim when parsing succeeds; the fallback always
carries all five keys, but a successfully parsed object is returned without
validation and need not. -/
theorem c2_amended_generator_total (w : World) (t c m : String) (j : JsonVal) :
    generate_compliance_alert w t c = alertOfOutcome t (w.llm (mkPrompt c)) ∧
    alertOfOutcome t (LlmOutcome.raised m) = fallbackAlert t ∧
    alertOfOutcome t (LlmOutcome.parseError m) = fallbackAlert t ∧
    alertOfOutcome t (LlmOutcome.parsed j) = j ∧
    hasAllAlertKeys (fallbackAlert t) = true := by
  refine ⟨?_, rfl, rfl, rfl, rfl⟩
  rw [generate_compliance_alert]
  cases h : w.llm (mkPrompt c) <;> simp [alertOfOutcome]

/-- C7: on a model invocation failure or a JSON-parse failure, the generator
returns exactly the deterministic fallback alert, whose title is the
original bill title argument and whose other four fields are the fixed
fallback strings. -/
theorem c7_fallback_alert_exact (w : World) (t c m : String)
    (h : w.llm (mkPrompt c) = LlmOutcome.raised m ∨
         w.llm (mkPrompt c) = LlmOutcome.parseError m) :
    generate_compliance_alert w t c = fallbackAlert t ∧
    fallbackAlert t = JsonVal.obj [("title", JsonVal.str t),
      ("summary", JsonVal.str "Unable to generate summary"),
      ("deadline", JsonVal.str "Unknown"),
      ("action_required", JsonVal.str "Review manually"),
      ("severity", JsonVal.str "Unknown")] := by
  refine ⟨?_, rfl⟩
  rw [generate_compliance_alert]
  rcases h with h | h <;> rw [h]

/-- A concrete world whose model call always raises, for the witnesses. -/
def wRaise : World :=
  { fetchDoc := fun _ => Except.ok "x",
    llm := fun _ => LlmOutcome.raised "boom" }

/-- Witness for C7 at a concrete raising world. -/
theorem c7_witness :
    generate_compliance_alert wRaise "T" "c" = fallbackAlert "T" ∧
    fallbackAlert "T" = JsonVal.obj [("title", JsonVal.str "T"),
      ("summary", JsonVal.str "Unable to generate summary"),
      ("deadline", JsonVal.str "Unknown"),
      ("action_required", JsonVal.str "Review manually"),
      ("severity", JsonVal.str "Unknown")] :=
  c7_fallback_alert_exact wRaise "T" "c" "boom" (Or.inl rfl)

/-- C8: the generator depends on the model environment only at the prompt
built from the truncated content; that prompt is the fixed text followed by
the first MAX_TEXT_LENGTH characters of the content; the truncation is the
identity exactly when the content has at most MAX_TEXT_LENGTH characters,
has length the minimum of the content length and MAX_TEXT_LENGTH, and is a
leading segment of the content. -/
theorem c8_content_truncation (w w2 : World) (t c : String)
    (h : w2.llm (mkPrompt c) = w.llm (mkPrompt c)) :
    generate_compliance_alert w2 t c = generate_compliance_alert w t c ∧
    mkPrompt c = promptHead ++ pySlice c MAX_TEXT_LENGTH ∧
    (pySlice c MAX_TEXT_LENGTH = c ↔ c.length ≤ MAX_TEXT_LENGTH) ∧
    (pySlice c MAX_TEXT_LENGTH).length = min c.length MAX_TEXT_LENGTH ∧
    pySlice c MAX_TEXT_LENGTH ++ pyDrop c MAX_TEXT_LENGTH = c := by
  have hlen : (pySlice c MAX_TEXT_LENGTH).length = min c.length MAX_TEXT_LENGTH := by
    show (c.data.take MAX_TEXT_LENGTH).length = min c.data.length MAX_TEXT_LENGTH
    rw [List.length_take, Nat.min_comm]
  refine ⟨?_, rfl, ⟨?_, ?_⟩, hlen, ?_⟩
  · rw [generate_compliance_alert, generate_compliance_alert, h]
  · intro he
    have := hlen
    rw [he] at this
    omega
  · intro hle
    have hta : c.data.take MAX_TEXT_LENGTH = c.data := List.take_of_length_le hle
    show String.mk (c.data.take MAX_TEXT_LENGTH) = c
    rw [hta]
  · show String.mk (c.data.take MAX_TEXT_LENGTH ++ c.data.drop MAX_TEXT_LENGTH) = c
    rw [List.take_append_drop]

/-- Witness for C8 at a concrete world and a short content string. -/
theorem c8_witness :
    generate_compliance_alert wRaise "T" "abc" = generate_compliance_alert wRaise "T" "abc" ∧
    mkPrompt "abc" = promptHead ++ pySlice "abc" MAX_TEXT_LENGTH ∧
    (pySlice "abc" MAX_TEXT_LENGTH = "abc" ↔ ("abc" : String).length ≤ MAX_TEXT_LENGTH) ∧
    (pySlice "abc" MAX_TEXT_LENGTH).length = min ("abc" : String).length MAX_TEXT_LENGTH ∧
    pySlice "abc" MAX_TEXT_LENGTH ++ pyDrop "abc" MAX_TEXT_LENGTH = "abc" :=
  c8_content_truncation wRaise wRaise "T" "abc" rfl

/-- The status values of a BillOutcome in the DAG orchestrator. -/
inductive OutcomeStatus where
  | processed
  | no_sources
  | no_content
  | error
deriving DecidableEq

/-- The per-bill result dict built by process_single_bill and
process_bills_task; keys absent from a given branch are modelled none. -/
structure BillOutcome where
  bill_id : String
  title : String
  status : OutcomeStatus
  alert : Option JsonVal
  url : Option String
  error : Option String

/-- process_single_bill of the DAG: classifies one bill, fetching its first
source and generating an alert when possible.  The only uncaught exception
in its body is the KeyError raised by sources[0]["url"] when the first
source dict lacks the url key (fetch_bill_content and
generate_compliance_alert catch their own failures); the Except.error
carries a model of that exception's message. -/
def process_single_bill (w : World) (b : Bill) : Except String BillOutcome :=
  let bid := b.id.getD "unknown"
  let bt := b.title.getD "Unknown"
  match pySources b with
  | [] => Except.ok { bill_id := bid, title := bt, status := OutcomeStatus.no_sources, alert := none, url := none, error := none }
  | s :: _ =>
    match s.url with
    | none => Except.error "KeyError: url"
    | some url =>
      let content := fetch_bill_content w url
      if content = "" then
        Except.ok { bill_id := bid, title := bt, status := OutcomeStatus.no_content, alert := none, url := none, error := none }
      else
        Except.ok { bill_id := bid, title := bt, status := OutcomeStatus.processed, alert := some (generate_compliance_alert w bt content), url := some url, error := none }

/-- The error outcome appended by process_bills_task when processing one
bill raises: status error with the exception's message. -/
def mkErrorOutcome (b : Bill) (e : String) : BillOutcome :=
  { bill_id := b.id.getD "unknown", title := b.title.getD "Unknown",
    status := OutcomeStatus.error, alert := none, url := none, error := some e }

/-- The try/except body of the per-bill loop of process_bills_task: the
outcome of process_single_bill, or the error outcome when it raises. -/
def billStep (w : World) (b : Bill) : BillOutcome :=
  match process_single_bill w b with
  | Except.ok r => r
  | Except.error e => mkErrorOutcome b e

/-- The per-bill loop of process_bills_task: one appended outcome per bill,
in input order. -/
def process_bills_task (w : World) : List Bill → List BillOutcome
  | [] => []
  | b :: rest => billStep w b :: process_bills_task w rest

/-- C3: the orchestrator's per-bill processing yields exactly one
BillOutcome per input bill, the outcome count equals the bill count, and
the outcome at every index is derived from the bill at the same index, so
input order is preserved. -/
theorem c3_one_outcome_per_bill_in_order (w : World) (bills : List Bill) :
    process_bills_task w bills = bills.map (billStep w) ∧
    (process_bills_task w bills).length = bills.length ∧
    ∀ i : Nat, (process_bills_task w bills)[i]? = (bills[i]?).map (billStep w) := by
  have hmap : process_bills_task w bills = bills.map (billStep w) := by
    induction bills with
    | nil => rfl
    | cons b rest ih => simp [process_bills_task, ih]
  refine ⟨hmap, ?_, ?_⟩
  · rw [hmap, List.length_map]
  · intro i
    rw [hmap, List.getElem?_map]

lemma process_bills_task_append (w : World) (l1 l2 : List Bill) :
    process_bills_task w (l1 ++ l2) = process_bills_task w l1 ++ process_bills_task w l2 := by
  induction l1 with
  | nil => rfl
  | cons x xs ih => simp [process_bills_task, ih]

lemma process_single_bill_error_msg (w : World) (b : Bill) (e : String)
    (h : process_single_bill w b = Except.error e) : e = "KeyError: url" := by
  rcases hps : pySources b with _ | ⟨s, rest⟩
  · simp only [process_single_bill, hps] at h
    simp at h
  · rcases hu : s.url with _ | url
    · simp only [process_single_bill, hps, hu] at h
      simp only [Except.error.injEq] at h
      exact h.symm
    · simp only [process_single_bill, hps, hu] at h
      by_cases hc : fetch_bill_content w url = ""
      · rw [if_pos hc] at h
        simp at h
      · rw [if_neg hc] at h
        simp at h

/-- C4: when processing one bill raises, the batch result is the results of
the earlier bills, then the error outcome for that bill (status error,
carrying the non-empty exception message), then the results of the later
bills, which are processed exactly as they would be on their own. -/
theorem c4_error_isolated_batch_continues (w : World) (pre post : List Bill) (b : Bill)
    (e : String) (h : process_single_bill w b = Except.error e) :
    process_bills_task w (pre ++ b :: post)
      = process_bills_task w pre ++ mkErrorOutcome b e :: process_bills_task w post ∧
    (mkErrorOutcome b e).status = OutcomeStatus.error ∧
    (mkErrorOutcome b e).error = some e ∧
    e ≠ "" := by
  have hstep : billStep w b = mkErrorOutcome b e := by
    rw [billStep, h]
  have hne : e ≠ "" := by
    rw [process_single_bill_error_msg w b e h]
    decide
  refine ⟨?_, rfl, rfl, hne⟩
  rw [process_bills_task_append]
  simp [process_bills_task, hstep]

/-- A bill whose first source dict lacks the url key: processing it raises
KeyError. -/
def bBad : Bill :=
  { id := some "b1", identifier := none, title := some "A",
    sources := some [{ url := none }] }

/-- A bill with a well-formed source entry. -/
def bGood : Bill :=
  { id := some "b2", identifier := none, title := some "B",
    sources := some [{ url := some "http" }] }

/-- Witness for C4: in a two-bill batch whose first bill raises, the first
outcome is the error outcome and the second bill is still processed. -/
theorem c4_witness :
    process_bills_task wRaise ([] ++ bBad :: [bGood])
      = process_bills_task wRaise []
          ++ mkErrorOutcome bBad "KeyError: url" :: process_bills_task wRaise [bGood] ∧
    (mkErrorOutcome bBad "KeyError: url").status = OutcomeStatus.error ∧
    (mkErrorOutcome bBad "KeyError: url").error = some "KeyError: url" ∧
    ("KeyError: url" : String) ≠ "" :=
  c4_error_isolated_batch_continues wRaise [] [bGood] bBad "KeyError: url" rfl

/-- One observable event of the CLI per-bill loop of
LegislativeMonitor.process_bills: the branch taken for a bill (with its
printed title or generated alert), or a time.sleep call. -/
inductive CliStep where
  | no_sources (title : String)
  | no_content (title : String)
  | processed (alert : JsonVal)
  | sleep (seconds : Nat)

/-- The CLI per-bill loop of LegislativeMonitor.process_bills, as the trace
of its events: bills without sources or without content continue directly
to the next bill; a fully processed bill generates an alert and then sleeps
RATE_LIMIT_DELAY; the uncaught KeyError of bill["sources"][0]["url"]
aborts the loop. -/
def cli_loop (w : World) : List Bill → Except String (List CliStep)
  | [] => Except.ok []
  | b :: rest =>
    let t := b.title.getD "Unknown"
    match pySources b with
    | [] => (cli_loop w rest).map (fun es => CliStep.no_sources t :: es)
    | s :: _ =>
      match s.url with
      | none => Except.error "KeyError: url"
      | some url =>
        let content := fetch_bill_content w url
        if content = "" then
          (cli_loop w rest).map (fun es => CliStep.no_content t :: es)
        else
          (cli_loop w rest).map (fun es =>
            CliStep.processed (generate_compliance_alert w t content)
              :: CliStep.sleep RATE_LIMIT_DELAY :: es)

/-- The event segment one bill contributes to the CLI loop trace (empty in
the KeyError case, which aborts the loop instead). -/
def cliSeg (w : World) (b : Bill) : List CliStep :=
  let t := b.title.getD "Unknown"
  match pySources b with
  | [] => [CliStep.no_sources t]
  | s :: _ =>
    match s.url with
    | none => []
    | some url =>
      let content := fetch_bill_content w url
      if content = "" then [CliStep.no_content t]
      else [CliStep.processed (generate_compliance_alert w t content),
            CliStep.sleep RATE_LIMIT_DELAY]

/-- Whether a bill's CLI processing reaches the alert-generation stage (the
only branch of the loop body that ends in a sleep). -/
def reachesGenerate (w : World) (b : Bill) : Bool :=
  match pySources b with
  | [] => false
  | s :: _ =>
    match s.url with
    | none => false
    | some url => !(fetch_bill_content w url == "")

/-- A bill with no sources key. -/
def bNoSrcA : Bill :=
  { id := none, identifier := none, title := some "A", sources := none }

/-- C9 is false as stated: in this concrete run the first bill has no
sources, so its event is followed immediately by the second bill's event
with no sleep in between — the pacing delay is not applied between every
pair of consecutive bills.  The countP conjunct makes explicit that the
two bill events are adjacent with no sleep separating them. -/
theorem c9_counterexample :
    cli_loop wRaise [bNoSrcA, bGood]
      = Except.ok [CliStep.no_sources "A",
          CliStep.processed (fallbackAlert "B"), CliStep.sleep RATE_LIMIT_DELAY] ∧
    [CliStep.no_sources "A", CliStep.processed (fallbackAlert "B")].countP
        (fun e => match e with | CliStep.sleep _ => true | _ => false) = 0 :=
  ⟨rfl, rfl⟩

lemma cli_loop_ok_flatMap (w : World) :
    ∀ (bills : List Bill) (evs : List CliStep),
      cli_loop w bills = Except.ok evs → evs = bills.flatMap (cliSeg w) := by
  intro bills
  induction bills with
  | nil =>
    intro evs h
    simp only [cli_loop, Except.ok.injEq] at h
    rw [← h]
    rfl
  | cons b rest ih =>
    intro evs h
    rcases hps : pySources b with _ | ⟨s, srest⟩
    · simp only [cli_loop, hps] at h
      rcases hr : cli_loop w rest with m | es <;> rw [hr] at h <;> simp [Except.map] at h
      rw [← h]
      simp [List.flatMap_cons, cliSeg, hps, ih es hr]
    · rcases hu : s.url with _ | url
      · simp only [cli_loop, hps, hu] at h
        simp at h
      · simp only [cli_loop, hps, hu] at h
        by_cases hc : fetch_bill_content w url = ""
        · rw [if_pos hc] at h
          rcases hr : cli_loop w rest with m | es <;> rw [hr] at h <;> simp [Except.map] at h
          rw [← h]
          simp [List.flatMap_cons, cliSeg, hps, hu, hc, ih es hr]
        · rw [if_neg hc] at h
          rcases hr : cli_loop w rest with m | es <;> rw [hr] at h <;> simp [Except.map] at h
          rw [← h]
          simp [List.flatMap_cons, cliSeg, hps, hu, hc, ih es hr]

/-- C9 amended: the CLI loop trace decomposes bill by bill in input order,
and a bill's segment contains the RATE_LIMIT_DELAY sleep exactly when that
bill's processing reaches the alert-generation stage — bills skipped for
missing sources or empty content continue to the next bill with no pacing
delay.  (The DAG's per-bill loop, process_bills_task, contains no sleep
call at all, as its embedding shows.) -/
theorem c9_amended_sleep_only_after_processed (w : World) (bills : List Bill)
    (evs : List CliStep) (b : Bill) (h : cli_loop w bills = Except.ok evs) :
    evs = bills.flatMap (cliSeg w) ∧
    (CliStep.sleep RATE_LIMIT_DELAY ∈ cliSeg w b ↔ reachesGenerate w b = true) := by
  refine ⟨cli_loop_ok_flatMap w bills evs h, ?_⟩
  rcases hps : pySources b with _ | ⟨s, srest⟩
  · simp [cliSeg, reachesGenerate, hps]
  · rcases hu : s.url with _ | url
    · simp [cliSeg, reachesGenerate, hps, hu]
    · by_cases hc : fetch_bill_content w url = ""
      · simp [cliSeg, reachesGenerate, hps, hu, hc]
      · simp [cliSeg, reachesGenerate, hps, hu, hc]

/-- Witness for C9's amended claim at a concrete run: the trace of the
two-bill batch decomposes into the two segments, and the good bill's
segment contains the sleep since it reaches generation. -/
theorem c9_witness :
    ([CliStep.no_sources "A", CliStep.processed (fallbackAlert "B"),
        CliStep.sleep RATE_LIMIT_DELAY] : List CliStep)
      = [bNoSrcA, bGood].flatMap (cliSeg wRaise) ∧
    (CliStep.sleep RATE_LIMIT_DELAY ∈ cliSeg wRaise bGood ↔
      reachesGenerate wRaise bGood = true) :=
  c9_amended_sleep_only_after_processed wRaise [bNoSrcA, bGood] _ bGood rfl

/-- The observable result of the CLI entry point process_bills: exitFail
models sys.exit, raised models an uncaught exception, completed carries the
loop trace. -/
inductive CliRun where
  | exitFail (code : Nat)
  | raised (msg : String)
  | completed (events : List CliStep)

/-- LegislativeMonitor.process_bills: fetches bills, exits with status 1
when none are found, and otherwise runs the per-bill loop. -/
def process_bills_cli (env : String → GqlResult) (w : World) : CliRun :=
  let bills := fetch_bills env
  if bills.isEmpty then CliRun.exitFail 1
  else
    match cli_loop w bills with
    | Except.error m => CliRun.raised m
    | Except.ok evs => CliRun.completed evs

/-- fetch_bills_task of the DAG: returns the fetched bills, and an empty
list — returning normally, without raising — when none are found. -/
def fetch_bills_taskE (env : String → GqlResult) : Except String (List Bill) :=
  let bills := fetch_bills env
  if bills.isEmpty then Except.ok []
  else Except.ok bills

/-- process_bills_task of the DAG at task level: returns an empty outcome
list, again without raising, when there are no bills to process. -/
def process_bills_taskE (w : World) (bills : List Bill) : Except String (List BillOutcome) :=
  if bills.isEmpty then Except.ok []
  else Except.ok (process_bills_task w bills)

/-- The DAG data path: the fetch task feeding the processing task. -/
def dag_run (env : String → GqlResult) (w : World) : Except String (List BillOutcome) :=
  (fetch_bills_taskE env).bind (fun bills => process_bills_taskE w bills)

/-- The environment in which every query fails, so the search is exhausted. -/
def envFail : String → GqlResult := fun _ => GqlResult.failure

/-- C6 is false as stated: with the search space exhausted, the DAG run is
not a fatal failure — fetch_bills_task returns an empty list normally and
the run completes successfully with zero BillOutcomes.  Only the CLI entry
point exits with status 1. -/
theorem c6_counterexample :
    fetch_bills envFail = [] ∧
    fetch_bills_taskE envFail = Except.ok [] ∧
    dag_run envFail wRaise = Except.ok [] ∧
    process_bills_cli envFail wRaise = CliRun.exitFail 1 :=
  ⟨rfl, rfl, rfl, rfl⟩

/-- C6 amended: when the search returns no bills, the CLI run exits with
status 1 having produced zero outcomes, while the DAG run completes
normally: the fetch task returns an empty list without raising and the
processing task returns zero BillOutcomes. -/
theorem c6_amended_empty_search_cli_exits_dag_completes (env : String → GqlResult)
    (w : World) (h : fetch_bills env = []) :
    process_bills_cli env w = CliRun.exitFail 1 ∧
    fetch_bills_taskE env = Except.ok [] ∧
    dag_run env w = Except.ok [] := by
  refine ⟨?_, ?_, ?_⟩
  · rw [process_bills_cli]
    simp [h]
  · rw [fetch_bills_taskE]
    simp [h]
  · rw [dag_run, fetch_bills_taskE]
    simp [h, Except.bind, process_bills_taskE]

/-- Witness for C6's amended claim at the all-failure environment. -/
theorem c6_witness :
    process_bills_cli envFail wRaise = CliRun.exitFail 1 ∧
    fetch_bills_taskE envFail = Except.ok [] ∧
    dag_run envFail wRaise = Except.ok [] :=
  c6_amended_empty_search_cli_exits_dag_completes envFail wRaise rfl

end LegMon
